import Mathlib

/-!
Shallow embedding of the `substrate-tcr` runtime modules
`src/runtime/src/token.rs` (token ledger) and `src/runtime/src/tcr.rs`
(token-curated registry) for verification against the natural-language
specification.

Modelling conventions, all taken from the source:
* `TokenBalance` and `Moment` are instantiated at `u64` (the in-repo test
  runtime configuration); values are modelled as `Nat` and the checked
  arithmetic helpers (`CheckedAdd`, `CheckedSub`, `CheckedMul`,
  `CheckedDiv`) fail exactly when the `u64` result would leave
  `[0, 2^64)`.  The `u32` counters (`ListingCount`, `PollNonce`) wrap at
  `2^32` as a release-mode `+ 1` would.  The unchecked `+=` / `+`
  operations of the source wrap modulo `2^64` as release-mode `u64`
  addition does.
* Substrate storage maps are association lists; `mget` is `get` (first
  match), `mset` is `insert` (replace first match or append), a missing
  key reads as the type's `Default::default()` value, mirroring
  `StorageMap` semantics.
* Dispatchable calls in this Substrate generation do not roll storage
  back on error: a call is a function from state to an `Outcome`
  carrying both the (possibly `some`-error) result and the state with
  every write performed before the failure point retained.
* The block timestamp (`timestamp::Module::get`) is passed in as an
  explicit `now` argument; the authenticated origin is an
  `Option AccountId` (`none` models an unsigned origin, on which
  `ensure_signed` fails).
* `T::Hashing::hash(&data)` is modelled as the identity on the byte
  vector (collision-freedom of Blake2 is assumed), so `HashT = List Nat`.
-/

namespace TCR

abbrev AccountId := Nat

abbrev HashT := List Nat

/-- Modulus of the runtime balance / moment type `u64`. -/
def MOD : Nat := 2 ^ 64

/-- Modulus of the `u32` counters (listing ids, poll nonce). -/
def MOD32 : Nat := 2 ^ 32

/-- `CheckedAdd` on `u64`: fails when the sum leaves the word. -/
def checked_add (a b : Nat) : Option Nat :=
  if a + b < MOD then some (a + b) else none

/-- `CheckedSub` on `u64`: fails on underflow. -/
def checked_sub (a b : Nat) : Option Nat :=
  if b ≤ a then some (a - b) else none

/-- `CheckedMul` on `u64`: fails when the product leaves the word. -/
def checked_mul (a b : Nat) : Option Nat :=
  if a * b < MOD then some (a * b) else none

/-- `CheckedDiv` on `u64`: fails exactly on division by zero. -/
def checked_div (a b : Nat) : Option Nat :=
  if b = 0 then none else some (a / b)

/-- Storage-map read: first entry with the given key. -/
def mget {κ α : Type} [DecidableEq κ] : List (κ × α) → κ → Option α
  | [], _ => none
  | (k', v) :: rest, k => if k' = k then some v else mget rest k

/-- Storage-map write: replace the first entry with the key, else append. -/
def mset {κ α : Type} [DecidableEq κ] : List (κ × α) → κ → α → List (κ × α)
  | [], k, v => [(k, v)]
  | (k', v') :: rest, k, v =>
    if k' = k then (k, v) :: rest else (k', v') :: mset rest k v

/-- Storage-map `exists` check. -/
def mhas {κ α : Type} [DecidableEq κ] (m : List (κ × α)) (k : κ) : Bool :=
  (mget m k).isSome

theorem mget_mset_self {κ α : Type} [DecidableEq κ]
    (m : List (κ × α)) (k : κ) (v : α) : mget (mset m k v) k = some v := by
  induction m with
  | nil => simp [mget, mset]
  | cons hd tl ih =>
    by_cases h : hd.1 = k
    · simp [mset, mget, h]
    · simp [mset, mget, h, ih]

theorem mget_mset_ne {κ α : Type} [DecidableEq κ]
    (m : List (κ × α)) (k k' : κ) (v : α) (h : k' ≠ k) :
    mget (mset m k v) k' = mget m k' := by
  induction m with
  | nil => simp [mget, mset, Ne.symm h]
  | cons hd tl ih =>
    by_cases hk : hd.1 = k
    · simp [mset, mget, hk, Ne.symm h]
    · simp [mset, mget, hk, ih]

/-- Result of a dispatchable call: the possibly-failed status together with
the state in which every storage write performed before the failure point
is retained (this Substrate generation does not roll back on error). -/
structure Outcome (σ : Type) where
  err : Option String
  state : σ
deriving DecidableEq

/-- A successful call. -/
def ok {σ : Type} (s : σ) : Outcome σ := ⟨none, s⟩

/-- A failed call, retaining the state reached so far. -/
def fail {σ : Type} (msg : String) (s : σ) : Outcome σ := ⟨some msg, s⟩

/-- Error produced by `ensure_signed` on an unsigned origin. -/
def signedErr : String := "bad origin: expected to be a signed origin"

/-! ## Token ledger (`token.rs`) -/

/-- Persisted state of the `token` module. -/
structure TokenState where
  is_init : Bool
  total_supply : Nat
  balances : List (AccountId × Nat)
  allowances : List ((AccountId × AccountId) × Nat)
  locked : List (HashT × Nat)
deriving DecidableEq

/-- `balance_of` getter: missing accounts read as the default `0`. -/
def balance_of (st : TokenState) (a : AccountId) : Nat :=
  (mget st.balances a).getD 0

/-- `allowance` getter: missing pairs read as the default `0`. -/
def allowance (st : TokenState) (p : AccountId × AccountId) : Nat :=
  (mget st.allowances p).getD 0

/-- `locked_deposits` getter: missing hashes read as the default `0`. -/
def locked_deposits (st : TokenState) (h : HashT) : Nat :=
  (mget st.locked h).getD 0

/-- `token::Module::init`: one-shot mint of the total supply. -/
def token_init (sender : AccountId) (st : TokenState) : Outcome TokenState :=
  if st.is_init then fail "Token already initialized." st
  else ok { st with balances := mset st.balances sender st.total_supply,
                    is_init := true }

/-- `token::Module::lock`: move `value` from `who`'s free balance into the
escrow of `listing_hash`; requires a strictly larger free balance. -/
def lock (who : AccountId) (value : Nat) (listing_hash : HashT)
    (st : TokenState) : Outcome TokenState :=
  if (mhas st.balances who) = false then
    fail "Account does not own this token" st
  else
    let sender_balance := balance_of st who
    if sender_balance ≤ value then fail "Not enough balance." st
    else
      match checked_sub sender_balance value with
      | none => fail "overflow in calculating balance" st
      | some updated_from_balance =>
        match checked_add (locked_deposits st listing_hash) value with
        | none => fail "overflow in calculating deposit" st
        | some updated_deposit =>
          ok { st with balances := mset st.balances who updated_from_balance,
                       locked := mset st.locked listing_hash updated_deposit }

/-- `token::Module::unlock`: move `value` from the escrow of `listing_hash`
back to `to`'s free balance. -/
def unlock (dst : AccountId) (value : Nat) (listing_hash : HashT)
    (st : TokenState) : Outcome TokenState :=
  match checked_add (balance_of st dst) value with
  | none => fail "overflow in calculating balance" st
  | some updated_to_balance =>
    match checked_sub (locked_deposits st listing_hash) value with
    | none => fail "overflow in calculating deposit" st
    | some updated_deposit =>
      ok { st with balances := mset st.balances dst updated_to_balance,
                   locked := mset st.locked listing_hash updated_deposit }

/-- `token::Module::_transfer`: both balances are read before either is
written, and the sender's debit is written before the receiver's credit. -/
def _transfer (sender dst : AccountId) (value : Nat)
    (st : TokenState) : Outcome TokenState :=
  if (mhas st.balances sender) = false then
    fail "Account does not own this token" st
  else
    let sender_balance := balance_of st sender
    if sender_balance < value then fail "Not enough balance." st
    else
      match checked_sub sender_balance value with
      | none => fail "overflow in calculating balance" st
      | some updated_from_balance =>
        match checked_add (balance_of st dst) value with
        | none => fail "overflow in calculating balance" st
        | some updated_to_balance =>
          ok { st with
               balances := mset (mset st.balances sender updated_from_balance) dst updated_to_balance }

/-- Dispatchable `token::transfer`. -/
def transfer (origin : Option AccountId) (dst : AccountId) (value : Nat)
    (st : TokenState) : Outcome TokenState :=
  match origin with
  | none => fail signedErr st
  | some sender => _transfer sender dst value st

/-- Dispatchable `token::approve`: cumulative (checked) increment of the
`(sender, spender)` allowance. -/
def approve (origin : Option AccountId) (spender : AccountId) (value : Nat)
    (st : TokenState) : Outcome TokenState :=
  match origin with
  | none => fail signedErr st
  | some sender =>
    if (mhas st.balances sender) = false then
      fail "Account does not own this token" st
    else
      match checked_add (allowance st (sender, spender)) value with
      | none => fail "overflow in calculating allowance" st
      | some updated_allowance =>
        ok { st with
             allowances := mset st.allowances (sender, spender) updated_allowance }

/-- Dispatchable `token::transfer_from`.  The `_origin` argument is unused
(not even `ensure_signed`); the allowance consulted and decremented is the
one keyed by `(src, to)`, and the decremented allowance is written before
the fallible `_transfer` runs. -/
def transfer_from (_origin : Option AccountId) (src dst : AccountId)
    (value : Nat) (st : TokenState) : Outcome TokenState :=
  if (mhas st.allowances (src, dst)) = false then
    fail "Allowance does not exist." st
  else
    let a := allowance st (src, dst)
    if a < value then fail "Not enough allowance." st
    else
      match checked_sub a value with
      | none => fail "overflow in calculating allowance" st
      | some updated_allowance =>
        _transfer src dst value
          { st with allowances := mset st.allowances (src, dst) updated_allowance }

/-! ## Registry state machine (`tcr.rs`) -/

/-- A registry listing (`tcr.rs` `struct Listing`). -/
structure Listing where
  id : Nat
  data : List Nat
  deposit : Nat
  owner : AccountId
  application_expiry : Nat
  whitelisted : Bool
  challenge_id : Nat
deriving DecidableEq

/-- A challenge against a listing (`tcr.rs` `struct Challenge`). -/
structure Challenge where
  listing_hash : HashT
  deposit : Nat
  owner : AccountId
  voting_ends : Nat
  resolved : Bool
  reward_pool : Nat
  total_tokens : Nat
deriving DecidableEq

/-- A vote on a challenge (`tcr.rs` `struct Vote`). -/
structure Vote where
  value : Bool
  deposit : Nat
  claimed : Bool
deriving DecidableEq

/-- The tally of a challenge (`tcr.rs` `struct Poll`). -/
structure Poll where
  listing_hash : HashT
  votes_for : Nat
  votes_against : Nat
  passed : Bool
deriving DecidableEq

/-- `Default::default()` of `Listing`, read for missing storage keys. -/
def defaultListing : Listing := ⟨0, [], 0, 0, 0, false, 0⟩

/-- `Default::default()` of `Challenge`, read for missing storage keys. -/
def defaultChallenge : Challenge := ⟨[], 0, 0, 0, false, 0, 0⟩

/-- `Default::default()` of `Vote`, read for missing storage keys. -/
def defaultVote : Vote := ⟨false, 0, false⟩

/-- `Default::default()` of `Poll`, read for missing storage keys. -/
def defaultPoll : Poll := ⟨[], 0, 0, false⟩

/-- Persisted state of the `tcr` module together with its `token` ledger. -/
structure TcrState where
  token : TokenState
  owner : AccountId
  admins : List (AccountId × Bool)
  min_deposit : Option Nat
  apply_stage_len : Option Nat
  commit_stage_len : Option Nat
  listings : List (HashT × Listing)
  listing_count : Nat
  index_hash : List (Nat × HashT)
  poll_nonce : Nat
  challenges : List (Nat × Challenge)
  polls : List (Nat × Poll)
  votes : List ((Nat × AccountId) × Vote)
deriving DecidableEq

/-- `T::Hashing::hash` over the listing data, modelled as the identity. -/
def hashOf (data : List Nat) : HashT := data

/-- Dispatchable `tcr::init`: owner-only; initializes the token and makes
the owner an admin. -/
def tcr_init (origin : Option AccountId) (st : TcrState) : Outcome TcrState :=
  match origin with
  | none => fail signedErr st
  | some sender =>
    if sender ≠ st.owner then
      fail "Only the owner set in genesis config can initialize the TCR" st
    else
      match token_init sender st.token with
      | ⟨some e, t'⟩ => fail e { st with token := t' }
      | ⟨none, t'⟩ => ok { st with token := t', admins := mset st.admins sender true }

/-- Dispatchable `tcr::propose`. -/
def propose (origin : Option AccountId) (data : List Nat) (deposit : Nat)
    (now : Nat) (st : TcrState) : Outcome TcrState :=
  match origin with
  | none => fail signedErr st
  | some sender =>
    if 256 < data.length then
      fail "listing data cannot be more than 256 bytes" st
    else
      match st.min_deposit with
      | none => fail "Min deposit not set" st
      | some min_deposit =>
        if deposit < min_deposit then
          fail "deposit should be more than min_deposit" st
        else
          match st.apply_stage_len with
          | none => fail "Apply stage length not set." st
          | some apply_stage_len =>
            match checked_add now apply_stage_len with
            | none => fail "Overflow when setting application expiry." st
            | some app_exp =>
              let hashed := hashOf data
              let listing_id := st.listing_count
              let listing : Listing :=
                ⟨listing_id, data, deposit, sender, app_exp, false, 0⟩
              if mhas st.listings hashed then fail "Listing already exists" st
              else
                match lock sender deposit hashed st.token with
                | ⟨some e, t'⟩ => fail e { st with token := t' }
                | ⟨none, t'⟩ =>
                  ok { st with
                       token := t',
                       listing_count := (listing_id + 1) % MOD32,
                       listings := mset st.listings hashed listing,
                       index_hash := mset st.index_hash listing_id hashed }

/-- Dispatchable `tcr::challenge`. -/
def challenge (origin : Option AccountId) (listing_id : Nat) (deposit : Nat)
    (now : Nat) (st : TcrState) : Outcome TcrState :=
  match origin with
  | none => fail signedErr st
  | some sender =>
    if (mhas st.index_hash listing_id) = false then fail "Listing not found." st
    else
      let listing_hash := (mget st.index_hash listing_id).getD []
      let listing := (mget st.listings listing_hash).getD defaultListing
      if listing.challenge_id ≠ 0 then fail "Listing is already challenged." st
      else if listing.owner = sender then
        fail "You cannot challenge your own listing." st
      else if deposit < listing.deposit then
        fail "Not enough deposit to challenge." st
      else
        match st.commit_stage_len with
        | none => fail "Commit stage length not set." st
        | some commit_stage_len =>
          match checked_add now commit_stage_len with
          | none => fail "Overflow when setting voting expiry." st
          | some voting_exp =>
            if listing.application_expiry ≤ now then
              fail "Apply stage length has passed." st
            else
              let ch : Challenge :=
                ⟨listing_hash, deposit, sender, voting_exp, false, 0, 0⟩
              let poll : Poll := ⟨listing_hash, listing.deposit, deposit, false⟩
              match lock sender deposit listing_hash st.token with
              | ⟨some e, t'⟩ => fail e { st with token := t' }
              | ⟨none, t'⟩ =>
                let poll_nonce := st.poll_nonce
                ok { st with
                     token := t',
                     challenges := mset st.challenges poll_nonce ch,
                     polls := mset st.polls poll_nonce poll,
                     listings := mset st.listings listing_hash { listing with challenge_id := poll_nonce },
                     poll_nonce := (poll_nonce + 1) % MOD32 }

/-- Dispatchable `tcr::vote`.  The tally update is the source's unchecked
`+=`, which wraps on `u64`; the vote record for `(challenge_id, sender)`
is overwritten unconditionally. -/
def vote (origin : Option AccountId) (challenge_id : Nat) (value : Bool)
    (deposit : Nat) (now : Nat) (st : TcrState) : Outcome TcrState :=
  match origin with
  | none => fail signedErr st
  | some sender =>
    if (mhas st.challenges challenge_id) = false then
      fail "Challenge does not exist." st
    else
      let ch := (mget st.challenges challenge_id).getD defaultChallenge
      if ch.resolved then fail "Challenge is already resolved." st
      else if ch.voting_ends ≤ now then
        fail "Commit stage length has passed." st
      else
        match lock sender deposit ch.listing_hash st.token with
        | ⟨some e, t'⟩ => fail e { st with token := t' }
        | ⟨none, t'⟩ =>
          let poll0 := (mget st.polls challenge_id).getD defaultPoll
          let poll1 :=
            if value then { poll0 with votes_for := (poll0.votes_for + deposit) % MOD }
            else { poll0 with votes_against := (poll0.votes_against + deposit) % MOD }
          ok { st with
               token := t',
               polls := mset st.polls challenge_id poll1,
               votes := mset st.votes (challenge_id, sender) ⟨value, deposit, false⟩ }

/-- Dispatchable `tcr::resolve`.  `_origin` is unused.  The reward-pool
additions are the source's unchecked `+`, which wraps on `u64`.  In the
rejected branch the poll/listing/challenge mutations are written before
the fallible `unlock` of the challenger's deposit runs. -/
def resolve (listing_id : Nat) (now : Nat) (st : TcrState) : Outcome TcrState :=
  if (mhas st.index_hash listing_id) = false then fail "Listing not found." st
  else
    let listing_hash := (mget st.index_hash listing_id).getD []
    let listing := (mget st.listings listing_hash).getD defaultListing
    if 0 < listing.challenge_id then
      let ch := (mget st.challenges listing.challenge_id).getD defaultChallenge
      let poll := (mget st.polls listing.challenge_id).getD defaultPoll
      if now ≤ ch.voting_ends then
        fail "Commit stage length has not passed." st
      else
        let whitelisted := poll.votes_against ≤ poll.votes_for
        let st1 :=
          { st with
            polls := mset st.polls listing.challenge_id { poll with passed := whitelisted },
            listings := mset st.listings listing_hash { listing with whitelisted := whitelisted, challenge_id := 0 },
            challenges := mset st.challenges listing.challenge_id
              { ch with
                resolved := true,
                total_tokens := if whitelisted then poll.votes_for else poll.votes_against,
                reward_pool := if whitelisted then (ch.deposit + poll.votes_against) % MOD
                               else (listing.deposit + poll.votes_for) % MOD } }
        if whitelisted then ok st1
        else
          match unlock ch.owner ch.deposit listing_hash st1.token with
          | ⟨some e, t'⟩ => fail e { st1 with token := t' }
          | ⟨none, t'⟩ => ok { st1 with token := t' }
    else
      if now ≤ listing.application_expiry then
        fail "Apply stage length has not passed." st
      else
        ok { st with
             listings := mset st.listings listing_hash { listing with whitelisted := true } }

/-- Dispatchable `tcr::claim_reward`.  The vote record is read with the
storage default, so a missing vote is `{value = false, deposit = 0,
claimed = false}`; the winning-side reward is
`(reward_pool / total_tokens) * deposit + deposit` with checked
division/multiplication/addition; `claimed := true` is written in both
branches. -/
def claim_reward (origin : Option AccountId) (challenge_id : Nat)
    (st : TcrState) : Outcome TcrState :=
  match origin with
  | none => fail signedErr st
  | some sender =>
    if (mhas st.challenges challenge_id) = false then
      fail "Challenge not found." st
    else
      let ch := (mget st.challenges challenge_id).getD defaultChallenge
      if ch.resolved = false then fail "Challenge is not resolved." st
      else
        let poll := (mget st.polls challenge_id).getD defaultPoll
        let v := (mget st.votes (challenge_id, sender)).getD defaultVote
        if v.claimed then fail "Vote reward has already been claimed." st
        else
          if poll.passed = v.value then
            match checked_div ch.reward_pool ch.total_tokens with
            | none => fail "overflow in calculating reward" st
            | some reward_ratio_val =>
              match checked_mul reward_ratio_val v.deposit with
              | none => fail "overflow in calculating reward" st
              | some reward =>
                match checked_add reward v.deposit with
                | none => fail "overflow in calculating reward" st
                | some total =>
                  match unlock sender total ch.listing_hash st.token with
                  | ⟨some e, t'⟩ => fail e { st with token := t' }
                  | ⟨none, t'⟩ =>
                    ok { st with
                         token := t',
                         votes := mset st.votes (challenge_id, sender) { v with claimed := true } }
          else
            ok { st with
                 votes := mset st.votes (challenge_id, sender) { v with claimed := true } }

/-- Sum of the deposits of the unclaimed vote records keyed to poll `pid`. -/
def unclaimedVoteSum (vs : List ((Nat × AccountId) × Vote)) (pid : Nat) : Nat :=
  (vs.filter (fun e => decide (e.1.1 = pid ∧ e.2.claimed = false))).foldr
    (fun e acc => e.2.deposit + acc) 0

/-- The per-poll escrow equation of the specification: the tally equals the
listing deposit plus the challenge deposit plus the unclaimed vote
deposits of the poll. -/
abbrev pollInv (st : TcrState) (pid : Nat) : Prop :=
  ((mget st.polls pid).getD defaultPoll).votes_for
      + ((mget st.polls pid).getD defaultPoll).votes_against
    = ((mget st.listings (((mget st.challenges pid).getD defaultChallenge).listing_hash)).getD defaultListing).deposit
      + ((mget st.challenges pid).getD defaultChallenge).deposit
      + unclaimedVoteSum st.votes pid

/-! ## Helper lemmas about the token operations -/

theorem lock_ok (st : TokenState) (who : AccountId) (value : Nat) (lh : HashT)
    (h1 : mhas st.balances who = true) (h2 : value < balance_of st who)
    (h3 : locked_deposits st lh + value < MOD) :
    lock who value lh st =
      ok { st with balances := mset st.balances who (balance_of st who - value),
                   locked := mset st.locked lh (locked_deposits st lh + value) } := by
  simp [lock, h1, checked_sub, checked_add, Nat.not_le.mpr h2, Nat.le_of_lt h2, h3]

theorem unlock_ok (st : TokenState) (dst : AccountId) (value : Nat) (lh : HashT)
    (h1 : balance_of st dst + value < MOD) (h2 : value ≤ locked_deposits st lh) :
    unlock dst value lh st =
      ok { st with balances := mset st.balances dst (balance_of st dst + value),
                   locked := mset st.locked lh (locked_deposits st lh - value) } := by
  simp [unlock, checked_add, checked_sub, h1, h2]

theorem unlock_err_overflow (st : TokenState) (dst : AccountId) (value : Nat)
    (lh : HashT) (h : MOD ≤ balance_of st dst + value) :
    unlock dst value lh st = fail "overflow in calculating balance" st := by
  simp [unlock, checked_add, Nat.not_lt.mpr h]

/-!  ## Claims about the token ledger -/

/-- Claim C9: `transfer_from` never inspects the caller — its origin
argument is unused and not even required to be signed, so any two origins
(including the unsigned one) produce the identical outcome (result and
state) on the same arguments and starting state. -/
theorem c9_transfer_from_origin_irrelevant :
    ∀ (o1 o2 : Option AccountId) (src dst : AccountId) (value : Nat)
      (st : TokenState),
      transfer_from o1 src dst value st = transfer_from o2 src dst value st := by
  intro o1 o2 src dst value st
  rfl

/-- State used for the C1 failing input: the allowance `(1, 2) ↦ 50`
exists but account `1` holds no balance record. -/
def c1State : TokenState :=
  { is_init := true, total_supply := 1000, balances := [],
    allowances := [((1, 2), 50)], locked := [] }

/-- Claim C1 (code bug), evaluated at the failing input: the call
`transfer_from(origin = 3, from = 1, to = 2, 50)` returns an error, yet
the allowance entry `(1, 2)` has been decremented from `50` to `0` by the
failed call — the partial mutation survives. -/
theorem c1_failed_transfer_from_retains_allowance_write :
    (transfer_from (some 3) 1 2 50 c1State).err
        = some "Account does not own this token"
      ∧ mget c1State.allowances (1, 2) = some 50
      ∧ mget (transfer_from (some 3) 1 2 50 c1State).state.allowances (1, 2)
        = some 0 := by
  decide

/-- State used for the C2 counterexample: caller `3` holds the
`(owner = 1, spender = 3)` allowance `7`, while the `(1, 2)` entry is
`50`; account `1` has balance `60`. -/
def c2State : TokenState :=
  { is_init := true, total_supply := 1000,
    balances := [(1, 60), (2, 0), (3, 0)],
    allowances := [((1, 3), 7), ((1, 2), 50)], locked := [] }

/-- Claim C2 counterexample: with caller `3`, `from = 1`, `to = 2`,
`amount = 50`, the `(owner = 1, spender = caller = 3)` allowance is `7 < 50`,
so the claim says the call fails with InsufficientAllowance — but it
succeeds, and the `(1, 3)` allowance is not decremented. -/
theorem c2_counterexample :
    allowance c2State (1, 3) < 50
      ∧ (transfer_from (some 3) 1 2 50 c2State).err = none
      ∧ mget (transfer_from (some 3) 1 2 50 c2State).state.allowances (1, 3)
        = some 7 := by
  decide

/-- Claim C2 (amended): `transfer_from(_, from, to, amount)` consumes the
allowance keyed `(from, to)` — the caller is irrelevant: it fails with
"Not enough allowance." (and no state change) when that entry is less
than `amount`, and on success decrements that entry by `amount` and
transfers `amount` from `from`'s balance to `to`'s balance. -/
theorem c2_transfer_from_consumes_from_to_allowance
    (o : Option AccountId) (src dst : AccountId) (v a b : Nat)
    (st : TokenState)
    (hA : mget st.allowances (src, dst) = some a)
    (hb : mget st.balances src = some b) :
    (a < v →
      (transfer_from o src dst v st).err = some "Not enough allowance."
        ∧ (transfer_from o src dst v st).state = st)
    ∧ (v ≤ a → v ≤ b → src ≠ dst → balance_of st dst + v < MOD →
      (transfer_from o src dst v st).err = none
        ∧ mget (transfer_from o src dst v st).state.allowances (src, dst)
          = some (a - v)
        ∧ balance_of (transfer_from o src dst v st).state src = b - v
        ∧ balance_of (transfer_from o src dst v st).state dst
          = balance_of st dst + v) := by
  constructor
  · intro hlt
    simp [transfer_from, mhas, hA, allowance, hlt, fail]
  · intro hva hvb hne hov
    have hnlt : ¬ a < v := Nat.not_lt.mpr hva
    have hnlt' : ¬ b < v := Nat.not_lt.mpr hvb
    have hbal : balance_of { st with allowances := mset st.allowances (src, dst) (a - v) } src = b := by
      simp [balance_of, hb]
    have hbal2 : balance_of { st with allowances := mset st.allowances (src, dst) (a - v) } dst
        = balance_of st dst := by
      simp [balance_of]
    simp only [transfer_from, mhas, hA, allowance, Option.getD_some, Option.isSome_some,
      checked_sub, hva, if_true, if_neg hnlt]
    simp only [_transfer, mhas, hbal, hbal2]
    simp only [balance_of, hb, Option.getD_some, Option.isSome_some]
    simp only [balance_of] at hov
    simp [hnlt', checked_sub, hvb, checked_add, hov, ok, balance_of,
      mget_mset_self, mget_mset_ne _ _ _ _ hne, hb]

/-- State used for the C10 counterexample: account `1` holds the maximal
`u64` balance. -/
def c10State : TokenState :=
  { is_init := true, total_supply := 0, balances := [(1, 2 ^ 64 - 1)],
    allowances := [], locked := [] }

/-- Claim C10 counterexample: account `1` holds `b = 2^64 - 1` and
`v = 2^64 - 1 ≤ b`, yet `transfer(1, 1, v)` does not succeed — the
receiver-side checked addition `b + v` overflows, so the claim's
unconditional "succeeds" is false. -/
theorem c10_counterexample :
    (2 ^ 64 - 1 : Nat) ≤ 2 ^ 64 - 1
      ∧ (transfer (some 1) 1 (2 ^ 64 - 1) c10State).err
        = some "overflow in calculating balance" := by
  decide

/-- Sums over a duplicate-free list of accounts change by exactly `v` when
one listed account's value grows by `v` and all others are unchanged. -/
theorem sum_map_update (f g : AccountId → Nat) (a : AccountId) (v : Nat)
    (hfa : g a = f a + v) (hother : ∀ c, c ≠ a → g c = f c) :
    ∀ l : List AccountId, l.Nodup → a ∈ l →
      (l.map g).sum = (l.map f).sum + v := by
  intro l
  induction l with
  | nil => intro _ h; cases h
  | cons hd tl ih =>
    intro hnd hmem
    rcases List.mem_cons.mp hmem with h | h
    · subst h
      have htl : tl.map g = tl.map f := by
        apply List.map_congr_left
        intro c hc
        exact hother c (fun hc' => (List.nodup_cons.mp hnd).1 (hc' ▸ hc))
      simp [htl, hfa]
      omega
    · have hhd : g hd = f hd := by
        apply hother
        intro hc
        exact (List.nodup_cons.mp hnd).1 (hc ▸ h)
      have := ih (List.nodup_cons.mp hnd).2 h
      simp [hhd, this]
      omega

/-- Claim C10 (amended): a self-transfer mints tokens — for every account
`a` holding balance `b` and every `v ≤ b` with `b + v < 2^64`,
`transfer(a, a, v)` succeeds and leaves `a`'s balance equal to `b + v`
(the debit `b - v` is written first and then overwritten by the credit
`b + v`), every other balance is unchanged, and the sum of free balances
over any duplicate-free set of accounts containing `a` increases by `v`
instead of being conserved. -/
theorem c10_self_transfer_mints (st : TokenState) (a : AccountId) (b v : Nat)
    (hb : mget st.balances a = some b) (hv : v ≤ b) (hov : b + v < MOD) :
    (transfer (some a) a v st).err = none
      ∧ balance_of (transfer (some a) a v st).state a = b + v
      ∧ (∀ c : AccountId, c ≠ a →
          mget (transfer (some a) a v st).state.balances c = mget st.balances c)
      ∧ (∀ l : List AccountId, l.Nodup → a ∈ l →
          (l.map (fun c => balance_of (transfer (some a) a v st).state c)).sum
            = (l.map (fun c => balance_of st c)).sum + v) := by
  have hshape : transfer (some a) a v st =
      ok { st with balances := mset (mset st.balances a (b - v)) a (b + v) } := by
    simp [transfer, _transfer, mhas, hb, balance_of, Nat.not_lt.mpr hv,
      checked_sub, hv, checked_add, hov]
  refine ⟨by simp [hshape, ok], ?_, ?_, ?_⟩
  · simp [hshape, ok, balance_of, mget_mset_self]
  · intro c hc
    simp [hshape, ok, mget_mset_ne _ _ _ _ hc]
  · intro l hnd hmem
    refine sum_map_update _ _ a v ?_ ?_ l hnd hmem
    · simp [hshape, ok, balance_of, mget_mset_self, hb]
    · intro c hc
      simp [hshape, ok, balance_of, mget_mset_ne _ _ _ _ hc]

/-- Witness for C2: at the concrete state `c2State`, the success branch of
the amended claim applies with `from = 1`, `to = 2`, `amount = 50`. -/
theorem c2_witness :
    (50 ≤ 50 → 50 ≤ 60 → (1 : AccountId) ≠ 2 → balance_of c2State 2 + 50 < MOD →
      (transfer_from (some 3) 1 2 50 c2State).err = none
        ∧ mget (transfer_from (some 3) 1 2 50 c2State).state.allowances (1, 2)
          = some (50 - 50)
        ∧ balance_of (transfer_from (some 3) 1 2 50 c2State).state 1 = 60 - 50
        ∧ balance_of (transfer_from (some 3) 1 2 50 c2State).state 2
          = balance_of c2State 2 + 50)
      ∧ (transfer_from (some 3) 1 2 50 c2State).err = none := by
  exact ⟨(c2_transfer_from_consumes_from_to_allowance (some 3) 1 2 50 50 60 c2State
    (by decide) (by decide)).2, by decide⟩

/-- Witness for C10: account `1` holds `100` in `c10WitnessState`; a
self-transfer of `40` succeeds and leaves balance `140`. -/
def c10WitnessState : TokenState :=
  { is_init := true, total_supply := 1000, balances := [(1, 100)],
    allowances := [], locked := [] }

/-- Witness for the amended C10 at a concrete input. -/
theorem c10_witness :
    (transfer (some 1) 1 40 c10WitnessState).err = none
      ∧ balance_of (transfer (some 1) 1 40 c10WitnessState).state 1 = 100 + 40
      ∧ (∀ c : AccountId, c ≠ 1 →
          mget (transfer (some 1) 1 40 c10WitnessState).state.balances c
            = mget c10WitnessState.balances c)
      ∧ (∀ l : List AccountId, l.Nodup → 1 ∈ l →
          (l.map (fun c => balance_of (transfer (some 1) 1 40 c10WitnessState).state c)).sum
            = (l.map (fun c => balance_of c10WitnessState c)).sum + 40) := by
  exact c10_self_transfer_mints c10WitnessState 1 100 40 (by decide) (by decide)
    (by decide)

/-! ## Helper lemmas about the registry operations -/

theorem vote_ok_shape (st : TcrState) (sender : AccountId) (cid : Nat)
    (val : Bool) (dep now : Nat) (ch : Challenge)
    (hch : mget st.challenges cid = some ch) (hres : ch.resolved = false)
    (htime : now < ch.voting_ends)
    (hbm : mhas st.token.balances sender = true)
    (hbv : dep < balance_of st.token sender)
    (hlm : locked_deposits st.token ch.listing_hash + dep < MOD) :
    vote (some sender) cid val dep now st =
      ok { st with
           token := { st.token with
                      balances := mset st.token.balances sender (balance_of st.token sender - dep),
                      locked := mset st.token.locked ch.listing_hash (locked_deposits st.token ch.listing_hash + dep) },
           polls := mset st.polls cid
             (if val then { (mget st.polls cid).getD defaultPoll with
                            votes_for := (((mget st.polls cid).getD defaultPoll).votes_for + dep) % MOD }
              else { (mget st.polls cid).getD defaultPoll with
                     votes_against := (((mget st.polls cid).getD defaultPoll).votes_against + dep) % MOD }),
           votes := mset st.votes (cid, sender) ⟨val, dep, false⟩ } := by
  simp [vote, mhas, hch, hres, Nat.not_le.mpr htime,
    lock_ok st.token sender dep ch.listing_hash hbm hbv hlm, ok]

theorem challenge_ok_shape (st : TcrState) (sender : AccountId)
    (lid dep now : Nat) (lh : HashT) (L : Listing)
    (hidx : mget st.index_hash lid = some lh)
    (hlst : mget st.listings lh = some L)
    (hc0 : L.challenge_id = 0) (hown : L.owner ≠ sender)
    (hdep : L.deposit ≤ dep) (csl : Nat)
    (hcsl : st.commit_stage_len = some csl) (hexp : now + csl < MOD)
    (happ : now < L.application_expiry)
    (hbm : mhas st.token.balances sender = true)
    (hbv : dep < balance_of st.token sender)
    (hlm : locked_deposits st.token lh + dep < MOD) :
    challenge (some sender) lid dep now st =
      ok { st with
           token := { st.token with
                      balances := mset st.token.balances sender (balance_of st.token sender - dep),
                      locked := mset st.token.locked lh (locked_deposits st.token lh + dep) },
           challenges := mset st.challenges st.poll_nonce ⟨lh, dep, sender, now + csl, false, 0, 0⟩,
           polls := mset st.polls st.poll_nonce ⟨lh, L.deposit, dep, false⟩,
           listings := mset st.listings lh { L with challenge_id := st.poll_nonce },
           poll_nonce := (st.poll_nonce + 1) % MOD32 } := by
  simp [challenge, mhas, hidx, hlst, hc0, hown, Nat.not_lt.mpr hdep, hcsl,
    checked_add, hexp, Nat.not_le.mpr happ,
    lock_ok st.token sender dep lh hbm hbv hlm, ok]

theorem resolve_nochallenge_window (st : TcrState) (lid : Nat) (lh : HashT)
    (L : Listing) (now : Nat)
    (hidx : mget st.index_hash lid = some lh)
    (hlst : mget st.listings lh = some L) (hc0 : L.challenge_id = 0) :
    (now ≤ L.application_expiry →
      resolve lid now st = fail "Apply stage length has not passed." st)
    ∧ (L.application_expiry < now →
      resolve lid now st =
        ok { st with listings := mset st.listings lh { L with whitelisted := true } }) := by
  constructor
  · intro h
    simp [resolve, mhas, hidx, hlst, hc0, h]
  · intro h
    simp [resolve, mhas, hidx, hlst, hc0, Nat.not_le.mpr h, ok]

theorem resolve_challenged_window_err (st : TcrState) (lid : Nat) (lh : HashT)
    (L : Listing) (now : Nat) (ch : Challenge)
    (hidx : mget st.index_hash lid = some lh)
    (hlst : mget st.listings lh = some L) (hpos : 0 < L.challenge_id)
    (hch : mget st.challenges L.challenge_id = some ch)
    (htime : now ≤ ch.voting_ends) :
    resolve lid now st = fail "Commit stage length has not passed." st := by
  simp [resolve, mhas, hidx, hlst, hpos, hch, htime]

theorem resolve_challenged_accepted (st : TcrState) (lid : Nat) (lh : HashT)
    (L : Listing) (now : Nat) (ch : Challenge) (p : Poll)
    (hidx : mget st.index_hash lid = some lh)
    (hlst : mget st.listings lh = some L) (hpos : 0 < L.challenge_id)
    (hch : mget st.challenges L.challenge_id = some ch)
    (hp : mget st.polls L.challenge_id = some p)
    (htime : ch.voting_ends < now) (hpass : p.votes_against ≤ p.votes_for) :
    resolve lid now st =
      ok { st with
           polls := mset st.polls L.challenge_id { p with passed := true },
           listings := mset st.listings lh { L with whitelisted := true, challenge_id := 0 },
           challenges := mset st.challenges L.challenge_id
             { ch with resolved := true, total_tokens := p.votes_for,
                       reward_pool := (ch.deposit + p.votes_against) % MOD } } := by
  simp [resolve, mhas, hidx, hlst, hpos, hch, hp, Nat.not_le.mpr htime, hpass, ok]

theorem unlock_err_msgs (dst : AccountId) (value : Nat) (lh : HashT)
    (st : TokenState) :
    (unlock dst value lh st).err = none
      ∨ (unlock dst value lh st).err = some "overflow in calculating balance"
      ∨ (unlock dst value lh st).err = some "overflow in calculating deposit" := by
  unfold unlock
  rcases checked_add (balance_of st dst) value with _ | u
  · simp [fail]
  · rcases checked_sub (locked_deposits st lh) value with _ | d
    · simp [fail]
    · simp [ok]

theorem unclaimedVoteSum_cons (e : (Nat × AccountId) × Vote)
    (vs : List ((Nat × AccountId) × Vote)) (pid : Nat) :
    unclaimedVoteSum (e :: vs) pid
      = (if e.1.1 = pid ∧ e.2.claimed = false then e.2.deposit else 0)
        + unclaimedVoteSum vs pid := by
  by_cases h : e.1.1 = pid ∧ e.2.claimed = false
  · simp [unclaimedVoteSum, List.filter_cons, h]
  · simp [unclaimedVoteSum, List.filter_cons, h]

theorem unclaimedVoteSum_mset_fresh (vs : List ((Nat × AccountId) × Vote))
    (k : Nat × AccountId) (v : Vote) (pid : Nat) (hk : mget vs k = none) :
    unclaimedVoteSum (mset vs k v) pid
      = unclaimedVoteSum vs pid
        + (if k.1 = pid ∧ v.claimed = false then v.deposit else 0) := by
  induction vs with
  | nil =>
    rw [show mset ([] : List ((Nat × AccountId) × Vote)) k v = [(k, v)] from rfl,
      unclaimedVoteSum_cons]
    simp [unclaimedVoteSum]
  | cons hd tl ih =>
    obtain ⟨ek, ev⟩ := hd
    have h1 : ek ≠ k := by
      intro h
      simp [mget, h] at hk
    have h2 : mget tl k = none := by
      simpa [mget, h1] using hk
    rw [show mset ((ek, ev) :: tl) k v = (ek, ev) :: mset tl k v by
        simp [mset, h1],
      unclaimedVoteSum_cons, unclaimedVoteSum_cons, ih h2]
    omega

theorem unclaimedVoteSum_mset_replace (vs : List ((Nat × AccountId) × Vote))
    (k : Nat × AccountId) (ov nv : Vote) (pid : Nat)
    (hk : mget vs k = some ov) (hkp : k.1 = pid) (hoc : ov.claimed = false)
    (hnc : nv.claimed = false) :
    unclaimedVoteSum (mset vs k nv) pid + ov.deposit
      = unclaimedVoteSum vs pid + nv.deposit := by
  induction vs with
  | nil => simp [mget] at hk
  | cons hd tl ih =>
    obtain ⟨ek, ev⟩ := hd
    by_cases h1 : ek = k
    · have hov : ev = ov := by
        have := hk
        simp [mget, h1] at this
        exact this
      have hm : mset ((ek, ev) :: tl) k nv = (k, nv) :: tl := by
        simp [mset, h1]
      rw [hm, unclaimedVoteSum_cons, unclaimedVoteSum_cons, hov, h1]
      simp [hkp, hoc, hnc]
      omega
    · have h2 : mget tl k = some ov := by
        simpa [mget, h1] using hk
      rw [show mset ((ek, ev) :: tl) k nv = (ek, ev) :: mset tl k nv by
          simp [mset, h1],
        unclaimedVoteSum_cons, unclaimedVoteSum_cons]
      have := ih h2
      omega

/-! ## Claims about the registry -/

/-- State used for the C4 counterexample: an open challenge `1` whose poll
already tallies `votes_for = 2^64 - 1`; voter `7` holds balance `10`. -/
def c4State : TcrState :=
  { token := { is_init := true, total_supply := 1000, balances := [(7, 10)],
               allowances := [], locked := [] },
    owner := 1, admins := [], min_deposit := some 100,
    apply_stage_len := some 10, commit_stage_len := some 10,
    listings := [([3], ⟨0, [3], 100, 1, 10, false, 1⟩)],
    listing_count := 1, index_hash := [(0, [3])], poll_nonce := 2,
    challenges := [(1, ⟨[3], 100, 2, 100, false, 0, 0⟩)],
    polls := [(1, ⟨[3], 2 ^ 64 - 1, 0, false⟩)], votes := [] }

/-- Claim C4 counterexample: a `vote` of deposit `2` on a poll whose
`votes_for` is `2^64 - 1` succeeds — no arithmetic error — and the tally
silently wraps to `1`, so the poll tally update in `vote` is not
checked. -/
theorem c4_counterexample :
    (vote (some 7) 1 true 2 0 c4State).err = none
      ∧ ((mget (vote (some 7) 1 true 2 0 c4State).state.polls 1).getD defaultPoll).votes_for
        = 1 := by
  decide

/-- Claim C4 (amended): the ledger's balance arithmetic is checked (e.g.
`unlock` fails with an arithmetic error and no state change on balance
overflow), but the poll tally updates in `vote` and the
`reward_pool` computation in `resolve` are unchecked wrapping additions:
under met preconditions `vote` always succeeds with the tally updated
modulo `2^64`, and an accepted `resolve` stores
`reward_pool = (challenge.deposit + votes_against) mod 2^64`. -/
theorem c4_vote_tally_and_reward_pool_unchecked :
    (∀ (st : TcrState) (sender : AccountId) (cid : Nat) (val : Bool)
       (dep now : Nat) (ch : Challenge) (p : Poll),
       mget st.challenges cid = some ch → ch.resolved = false →
       now < ch.voting_ends → mget st.polls cid = some p →
       mhas st.token.balances sender = true →
       dep < balance_of st.token sender →
       locked_deposits st.token ch.listing_hash + dep < MOD →
       (vote (some sender) cid val dep now st).err = none
         ∧ mget (vote (some sender) cid val dep now st).state.polls cid
           = some (if val then { p with votes_for := (p.votes_for + dep) % MOD }
                   else { p with votes_against := (p.votes_against + dep) % MOD }))
    ∧ (∀ (st : TokenState) (dst : AccountId) (v : Nat) (lh : HashT),
       MOD ≤ balance_of st dst + v →
       (unlock dst v lh st).err = some "overflow in calculating balance"
         ∧ (unlock dst v lh st).state = st)
    ∧ (∀ (st : TcrState) (lid : Nat) (lh : HashT) (L : Listing) (now : Nat)
       (ch : Challenge) (p : Poll),
       mget st.index_hash lid = some lh → mget st.listings lh = some L →
       0 < L.challenge_id → mget st.challenges L.challenge_id = some ch →
       mget st.polls L.challenge_id = some p → ch.voting_ends < now →
       p.votes_against ≤ p.votes_for →
       (resolve lid now st).err = none
         ∧ mget (resolve lid now st).state.challenges L.challenge_id
           = some { ch with resolved := true, total_tokens := p.votes_for,
                            reward_pool := (ch.deposit + p.votes_against) % MOD }) := by
  refine ⟨?_, ?_, ?_⟩
  · intro st sender cid val dep now ch p hch hres htime hp hbm hbv hlm
    rw [vote_ok_shape st sender cid val dep now ch hch hres htime hbm hbv hlm]
    simp [ok, mget_mset_self, hp]
  · intro st dst v lh hov
    rw [unlock_err_overflow st dst v lh hov]
    exact ⟨rfl, rfl⟩
  · intro st lid lh L now ch p hidx hlst hpos hch hp htime hpass
    rw [resolve_challenged_accepted st lid lh L now ch p hidx hlst hpos hch hp
      htime hpass]
    simp [ok, mget_mset_self]

/-- State used for the C4 witness of the wrapping `resolve` part: the
challenge deposit is `2^64 - 1` and `votes_against = 2`, so the stored
reward pool wraps to `1`. -/
def c4ResState : TcrState :=
  { token := { is_init := true, total_supply := 1000, balances := [],
               allowances := [], locked := [] },
    owner := 1, admins := [], min_deposit := some 100,
    apply_stage_len := some 10, commit_stage_len := some 10,
    listings := [([3], ⟨0, [3], 100, 1, 10, false, 1⟩)],
    listing_count := 1, index_hash := [(0, [3])], poll_nonce := 2,
    challenges := [(1, ⟨[3], 2 ^ 64 - 1, 2, 10, false, 0, 0⟩)],
    polls := [(1, ⟨[3], 5, 2, false⟩)], votes := [] }

/-- Token state used for the C4 witness of the checked `unlock` part:
account `1` holds the maximal `u64` balance. -/
def c4TokState : TokenState :=
  { is_init := true, total_supply := 0, balances := [(1, 2 ^ 64 - 1)],
    allowances := [], locked := [] }

/-- Witness for the amended C4 at concrete inputs: the wrapping `vote` on
`c4State`, the checked `unlock` overflow on `c4TokState`, and the wrapping
accepted `resolve` on `c4ResState`. -/
theorem c4_witness :
    ((vote (some 7) 1 true 2 0 c4State).err = none
      ∧ mget (vote (some 7) 1 true 2 0 c4State).state.polls 1
        = some { (⟨[3], 2 ^ 64 - 1, 0, false⟩ : Poll) with
                 votes_for := (2 ^ 64 - 1 + 2) % MOD })
    ∧ ((unlock 1 1 [] c4TokState).err = some "overflow in calculating balance"
      ∧ (unlock 1 1 [] c4TokState).state = c4TokState)
    ∧ ((resolve 0 11 c4ResState).err = none
      ∧ mget (resolve 0 11 c4ResState).state.challenges 1
        = some { (⟨[3], 2 ^ 64 - 1, 2, 10, false, 0, 0⟩ : Challenge) with
                 resolved := true, total_tokens := 5,
                 reward_pool := (2 ^ 64 - 1 + 2) % MOD }) := by
  refine ⟨?_, ?_, ?_⟩
  · exact (c4_vote_tally_and_reward_pool_unchecked.1 c4State 7 1 true 2 0
      ⟨[3], 100, 2, 100, false, 0, 0⟩ ⟨[3], 2 ^ 64 - 1, 0, false⟩
      (by decide) (by decide) (by decide) (by decide) (by decide) (by decide)
      (by decide))
  · exact (c4_vote_tally_and_reward_pool_unchecked.2.1 c4TokState 1 1 []
      (by decide))
  · exact (c4_vote_tally_and_reward_pool_unchecked.2.2 c4ResState 0 [3]
      ⟨0, [3], 100, 1, 10, false, 1⟩ 11 ⟨[3], 2 ^ 64 - 1, 2, 10, false, 0, 0⟩
      ⟨[3], 5, 2, false⟩ (by decide) (by decide) (by decide) (by decide)
      (by decide) (by decide) (by decide))

/-- State used for the C3 counterexample: listing `0` (hash `[9]`) has an
open challenge `1` with a tied poll `(101, 101)` ending at `15`. -/
def c3State : TcrState :=
  { token := { is_init := true, total_supply := 1000,
               balances := [(1, 1000), (2, 1000)], allowances := [],
               locked := [([9], 202)] },
    owner := 1, admins := [], min_deposit := some 100,
    apply_stage_len := some 10, commit_stage_len := some 10,
    listings := [([9], ⟨0, [9], 101, 1, 10, false, 1⟩)],
    listing_count := 1, index_hash := [(0, [9])], poll_nonce := 2,
    challenges := [(1, ⟨[9], 101, 2, 15, false, 0, 0⟩)],
    polls := [(1, ⟨[9], 101, 101, false⟩)], votes := [] }

/-- Claim C3 counterexample: the first `resolve` at `t = 16` resolves the
challenge; the claim says a subsequent `resolve` on the same listing id
must fail, but the second `resolve` at `t = 16` succeeds again (taking
the unchallenged path and re-whitelisting the listing). -/
theorem c3_counterexample :
    (resolve 0 16 c3State).err = none
      ∧ ((mget (resolve 0 16 c3State).state.challenges 1).getD defaultChallenge).resolved
        = true
      ∧ (resolve 0 16 (resolve 0 16 c3State).state).err = none := by
  decide

/-- Claim C3 (amended): after a challenge is resolved the listing's
`challenge_id` is reset to `0`, so a repeat `resolve` takes the
unchallenged path: it fails with the apply-window error (and no state
change) iff `now ≤ application_expiry`, and otherwise *succeeds again*,
re-setting `whitelisted := true` while leaving the challenge, poll and
token state untouched — in particular it never recomputes rewards. -/
theorem c3_repeat_resolve_takes_unchallenged_path (st : TcrState)
    (lid : Nat) (lh : HashT) (L : Listing) (cid : Nat) (ch : Challenge)
    (now : Nat)
    (hidx : mget st.index_hash lid = some lh)
    (hlst : mget st.listings lh = some L) (hcz : L.challenge_id = 0)
    (hch : mget st.challenges cid = some ch) (hres : ch.resolved = true) :
    (now ≤ L.application_expiry →
      (resolve lid now st).err = some "Apply stage length has not passed."
        ∧ (resolve lid now st).state = st)
    ∧ (L.application_expiry < now →
      (resolve lid now st).err = none
        ∧ (resolve lid now st).state =
            { st with listings := mset st.listings lh { L with whitelisted := true } }) := by
  have hw := resolve_nochallenge_window st lid lh L now hidx hlst hcz
  constructor
  · intro h
    rw [hw.1 h]
    exact ⟨rfl, rfl⟩
  · intro h
    rw [hw.2 h]
    exact ⟨rfl, rfl⟩

/-- The state reached after the first (challenged) `resolve` of `c3State`. -/
def c3PostState : TcrState := (resolve 0 16 c3State).state

/-- The listing record stored in `c3PostState` after resolution. -/
def c3PostListing : Listing := ⟨0, [9], 101, 1, 10, true, 0⟩

/-- The resolved challenge record stored in `c3PostState`. -/
def c3PostChallenge : Challenge := ⟨[9], 101, 2, 15, true, 202, 101⟩

/-- Witness for the amended C3 at the concrete post-resolution state. -/
theorem c3_witness :
    (16 ≤ c3PostListing.application_expiry →
      (resolve 0 16 c3PostState).err = some "Apply stage length has not passed."
        ∧ (resolve 0 16 c3PostState).state = c3PostState)
    ∧ (c3PostListing.application_expiry < 16 →
      (resolve 0 16 c3PostState).err = none
        ∧ (resolve 0 16 c3PostState).state =
            { c3PostState with
              listings := mset c3PostState.listings [9]
                { c3PostListing with whitelisted := true } }) :=
  c3_repeat_resolve_takes_unchallenged_path c3PostState 0 [9] c3PostListing 1
    c3PostChallenge 16 (by decide) (by decide) (by decide) (by decide)
    (by decide)

/-- A challenged `resolve` past its window never fails with the window
error: it either succeeds or fails inside the challenger refund. -/
theorem resolve_challenged_past_window_not_window_err (st : TcrState)
    (lid : Nat) (lh : HashT) (L : Listing) (now : Nat) (ch : Challenge)
    (hidx : mget st.index_hash lid = some lh)
    (hlst : mget st.listings lh = some L) (hpos : 0 < L.challenge_id)
    (hch : mget st.challenges L.challenge_id = some ch)
    (htime : ch.voting_ends < now) :
    (resolve lid now st).err ≠ some "Commit stage length has not passed." := by
  by_cases hpass : ((mget st.polls L.challenge_id).getD defaultPoll).votes_against
      ≤ ((mget st.polls L.challenge_id).getD defaultPoll).votes_for
  · simp [resolve, mhas, hidx, hlst, hpos, hch, Nat.not_le.mpr htime, hpass, ok]
  · have hmsgs := unlock_err_msgs ch.owner ch.deposit lh st.token
    rcases hu : unlock ch.owner ch.deposit lh st.token with ⟨e, t'⟩
    rw [hu] at hmsgs
    rcases e with _ | e
    · simp [resolve, mhas, hidx, hlst, hpos, hch, Nat.not_le.mpr htime, hpass,
        hu, ok, fail]
    · have he : e = "overflow in calculating balance"
          ∨ e = "overflow in calculating deposit" := by
        rcases hmsgs with h | h | h
        · exact absurd h (by simp)
        · exact Or.inl (by simpa using h)
        · exact Or.inr (by simpa using h)
      simp only [resolve, mhas, hidx, Option.getD_some, Option.isSome_some, hlst,
        hpos, if_pos hpos, hch, Nat.not_le.mpr htime, hpass, if_neg hpass, hu]
      rcases he with h | h <;> subst h <;> simp [fail]

/-- State used for the C8 counterexample: an unchallenged listing `0`
(hash `[1]`) with `application_expiry = 10`. -/
def c8State : TcrState :=
  { token := { is_init := true, total_supply := 1000, balances := [(1, 1000)],
               allowances := [], locked := [([1], 100)] },
    owner := 1, admins := [], min_deposit := some 100,
    apply_stage_len := some 10, commit_stage_len := some 10,
    listings := [([1], ⟨0, [1], 100, 1, 10, false, 0⟩)],
    listing_count := 1, index_hash := [(0, [1])], poll_nonce := 1,
    challenges := [], polls := [], votes := [] }

/-- Claim C8 counterexample: at the instant `now = application_expiry = 10`
the claim says `resolve` succeeds, but the code's strict `<` comparison
makes it fail with the window error. -/
theorem c8_counterexample :
    ((mget c8State.listings [1]).getD defaultListing).application_expiry = 10
      ∧ (resolve 0 10 c8State).err = some "Apply stage length has not passed." := by
  decide

/-- Claim C8 (amended): `resolve`'s deadline gates are strict, exclusive of
the deadline instant: with no active challenge it succeeds exactly when
`application_expiry < now` (so it fails at `now = application_expiry`),
and with an active challenge it fails with the window error exactly when
`now ≤ voting_ends` (so it only proceeds when `voting_ends < now`). -/
theorem c8_resolve_deadline_exclusive (st : TcrState) (lid : Nat) (lh : HashT)
    (L : Listing) (now : Nat)
    (hidx : mget st.index_hash lid = some lh)
    (hlst : mget st.listings lh = some L) :
    (L.challenge_id = 0 →
      ((resolve lid now st).err = none ↔ L.application_expiry < now))
    ∧ (∀ ch : Challenge, 0 < L.challenge_id →
        mget st.challenges L.challenge_id = some ch →
        ((resolve lid now st).err = some "Commit stage length has not passed."
          ↔ now ≤ ch.voting_ends)) := by
  constructor
  · intro hc0
    have hw := resolve_nochallenge_window st lid lh L now hidx hlst hc0
    by_cases h : L.application_expiry < now
    · rw [hw.2 h]
      simp [ok, h]
    · rw [hw.1 (Nat.not_lt.mp h)]
      simp [fail, h]
  · intro ch hpos hch
    by_cases h : now ≤ ch.voting_ends
    · rw [resolve_challenged_window_err st lid lh L now ch hidx hlst hpos hch h]
      simp [fail, h]
    · have hne := resolve_challenged_past_window_not_window_err st lid lh L now
        ch hidx hlst hpos hch (Nat.not_le.mp h)
      simp [hne, h]

/-- Witness for the amended C8 at the concrete state `c8State` and the
deadline instant `now = 10`. -/
theorem c8_witness :
    ((⟨0, [1], 100, 1, 10, false, 0⟩ : Listing).challenge_id = 0 →
      ((resolve 0 10 c8State).err = none ↔
        (⟨0, [1], 100, 1, 10, false, 0⟩ : Listing).application_expiry < 10))
    ∧ (∀ ch : Challenge,
        0 < (⟨0, [1], 100, 1, 10, false, 0⟩ : Listing).challenge_id →
        mget c8State.challenges (⟨0, [1], 100, 1, 10, false, 0⟩ : Listing).challenge_id
          = some ch →
        ((resolve 0 10 c8State).err = some "Commit stage length has not passed."
          ↔ 10 ≤ ch.voting_ends)) :=
  c8_resolve_deadline_exclusive c8State 0 [1] ⟨0, [1], 100, 1, 10, false, 0⟩ 10
    (by decide) (by decide)

theorem checked_div_some {a b r : Nat} (h : checked_div a b = some r) :
    b ≠ 0 ∧ r = a / b := by
  unfold checked_div at h
  split at h
  · exact absurd h (by simp)
  · exact ⟨by assumption, (Option.some.inj h).symm⟩

theorem checked_mul_some {a b r : Nat} (h : checked_mul a b = some r) :
    r = a * b := by
  unfold checked_mul at h
  split at h
  · exact (Option.some.inj h).symm
  · exact absurd h (by simp)

theorem checked_add_some {a b r : Nat} (h : checked_add a b = some r) :
    r = a + b ∧ a + b < MOD := by
  unfold checked_add at h
  split at h
  · exact ⟨(Option.some.inj h).symm, by assumption⟩
  · exact absurd h (by simp)

theorem checked_sub_some {a b r : Nat} (h : checked_sub a b = some r) :
    r = a - b ∧ b ≤ a := by
  unfold checked_sub at h
  split at h
  · exact ⟨(Option.some.inj h).symm, by assumption⟩
  · exact absurd h (by simp)

theorem unlock_ok_balance (dst : AccountId) (value : Nat) (lh : HashT)
    (stT t' : TokenState) (h : unlock dst value lh stT = ⟨none, t'⟩) :
    balance_of t' dst = balance_of stT dst + value := by
  unfold unlock at h
  rcases ha : checked_add (balance_of stT dst) value with _ | ub
  · rw [ha] at h
    simp [fail] at h
  · rw [ha] at h
    rcases hs : checked_sub (locked_deposits stT lh) value with _ | ud
    · rw [hs] at h
      simp [fail] at h
    · rw [hs] at h
      simp only [ok, Outcome.mk.injEq] at h
      rw [← h.2]
      simp [balance_of, mget_mset_self, (checked_add_some ha).1]

/-- State used for the C6 witness: resolved challenge `0` with
`reward_pool = 202`, `total_tokens = 151` (the spec's worked example);
voter `3` holds an unclaimed winning vote of deposit `50` and a free
balance of `10`. -/
def c6State : TcrState :=
  { token := { is_init := true, total_supply := 1000, balances := [(3, 10)],
               allowances := [], locked := [([5], 300)] },
    owner := 1, admins := [], min_deposit := some 100,
    apply_stage_len := some 10, commit_stage_len := some 10,
    listings := [([5], ⟨0, [5], 101, 1, 10, true, 0⟩)],
    listing_count := 1, index_hash := [(0, [5])], poll_nonce := 1,
    challenges := [(0, ⟨[5], 101, 2, 15, true, 202, 151⟩)],
    polls := [(0, ⟨[5], 151, 101, true⟩)],
    votes := [((0, 3), ⟨true, 50, false⟩)] }

/-- Claim C6: for a winning voter (`poll.passed = vote.value`) on a
resolved challenge with an unclaimed vote, `total_tokens = 0` makes
`claim_reward` fail with the reward-arithmetic error (never silently
skipped), and whenever the call succeeds the amount credited to the
caller is exactly `floor(reward_pool / total_tokens) * deposit + deposit`
with truncating division. -/
theorem c6_claim_reward_winning_payout (st : TcrState) (sender : AccountId)
    (cid : Nat) (ch : Challenge) (v : Vote)
    (hch : mget st.challenges cid = some ch) (hres : ch.resolved = true)
    (hv : mget st.votes (cid, sender) = some v) (hcl : v.claimed = false)
    (hwin : ((mget st.polls cid).getD defaultPoll).passed = v.value) :
    (ch.total_tokens = 0 →
      (claim_reward (some sender) cid st).err
        = some "overflow in calculating reward")
    ∧ ((claim_reward (some sender) cid st).err = none →
      balance_of (claim_reward (some sender) cid st).state.token sender
        = balance_of st.token sender
          + ((ch.reward_pool / ch.total_tokens) * v.deposit + v.deposit)) := by
  constructor
  · intro htt
    have hdiv : checked_div ch.reward_pool ch.total_tokens = none := by
      simp [checked_div, htt]
    simp [claim_reward, mhas, hch, hres, hv, hcl, hwin, hdiv, fail]
  · intro hok
    rcases hdiv : checked_div ch.reward_pool ch.total_tokens with _ | rr
    · exfalso
      simp [claim_reward, mhas, hch, hres, hv, hcl, hwin, hdiv, fail] at hok
    · rcases hmul : checked_mul rr v.deposit with _ | reward
      · exfalso
        simp [claim_reward, mhas, hch, hres, hv, hcl, hwin, hdiv, hmul, fail] at hok
      · rcases hadd : checked_add reward v.deposit with _ | total
        · exfalso
          simp [claim_reward, mhas, hch, hres, hv, hcl, hwin, hdiv, hmul, hadd,
            fail] at hok
        · rcases hu : unlock sender total ch.listing_hash st.token with ⟨e, t'⟩
          rcases e with _ | e
          · have hrr := checked_div_some hdiv
            have hrw := checked_mul_some hmul
            have hto := (checked_add_some hadd).1
            have hb := unlock_ok_balance sender total ch.listing_hash st.token
              t' hu
            simp only [claim_reward, mhas, hch, Option.isSome_some, Bool.not_eq_true,
              Option.getD_some, hres, hv, hcl, hwin, hdiv, hmul, hadd, hu, ok,
              Bool.false_eq_true, if_false, if_true]
            simp [hb, hto, hrw, hrr.2]
          · exfalso
            simp [claim_reward, mhas, hch, hres, hv, hcl, hwin, hdiv, hmul,
              hadd, hu, fail] at hok

/-- Witness for C6: the spec's worked example — `reward_pool = 202`,
`total_tokens = 151`, deposit `50` — pays exactly
`floor(202/151) * 50 + 50 = 100`, taking voter `3`'s balance from `10`
to `110`. -/
theorem c6_witness :
    ((claim_reward (some 3) 0 c6State).err = none →
      balance_of (claim_reward (some 3) 0 c6State).state.token 3
        = balance_of c6State.token 3 + ((202 / 151) * 50 + 50))
      ∧ (claim_reward (some 3) 0 c6State).err = none
      ∧ balance_of (claim_reward (some 3) 0 c6State).state.token 3 = 110 :=
  ⟨(c6_claim_reward_winning_payout c6State 3 0 ⟨[5], 101, 2, 15, true, 202, 151⟩
      ⟨true, 50, false⟩ (by decide) (by decide) (by decide) (by decide)
      (by decide)).2,
   by decide, by decide⟩

/-- State used for C7: resolved challenge `0` (`passed = false`,
`total_tokens = 1`); account `5` never voted on it. -/
def c7State : TcrState :=
  { token := { is_init := true, total_supply := 1000, balances := [],
               allowances := [], locked := [] },
    owner := 1, admins := [], min_deposit := some 100,
    apply_stage_len := some 10, commit_stage_len := some 10,
    listings := [([1], ⟨0, [1], 100, 1, 10, false, 0⟩)],
    listing_count := 1, index_hash := [(0, [1])], poll_nonce := 1,
    challenges := [(0, ⟨[1], 10, 2, 5, true, 0, 1⟩)],
    polls := [(0, ⟨[1], 0, 10, false⟩)], votes := [] }

/-- Claim C7 counterexample: no Vote record exists for `(0, 5)`, yet
`claim_reward` by `5` succeeds — the code never checks that the caller's
vote exists; the missing record is read as the default vote. -/
theorem c7_counterexample :
    mget c7State.votes (0, 5) = none
      ∧ (claim_reward (some 5) 0 c7State).err = none := by
  decide

/-- Claim C7 (amended): `claim_reward` does not require the caller's Vote
record to exist — a missing record is read as the storage default
`{value = false, deposit = 0, claimed = false}`; given an existing
resolved challenge, any successful call stores the (defaulted) vote with
`claimed = true` (also for losing voters and non-voters), and a second
`claim_reward` by the same caller then fails with AlreadyClaimed —
`claimed` transitions `false → true` exactly once per (challenge,
caller). -/
theorem c7_claimed_set_exactly_once (st : TcrState) (sender : AccountId)
    (cid : Nat) (ch : Challenge)
    (hch : mget st.challenges cid = some ch) (hres : ch.resolved = true)
    (hok : (claim_reward (some sender) cid st).err = none) :
    mget (claim_reward (some sender) cid st).state.votes (cid, sender)
        = some { (mget st.votes (cid, sender)).getD defaultVote with claimed := true }
      ∧ (claim_reward (some sender) cid (claim_reward (some sender) cid st).state).err
        = some "Vote reward has already been claimed." := by
  by_cases hcl : ((mget st.votes (cid, sender)).getD defaultVote).claimed
  · exfalso
    simp [claim_reward, mhas, hch, hres, hcl, fail] at hok
  · by_cases hwin : ((mget st.polls cid).getD defaultPoll).passed
        = ((mget st.votes (cid, sender)).getD defaultVote).value
    · rcases hdiv : checked_div ch.reward_pool ch.total_tokens with _ | rr
      · exfalso
        simp [claim_reward, mhas, hch, hres, hcl, hwin, hdiv, fail] at hok
      · rcases hmul : checked_mul rr
            ((mget st.votes (cid, sender)).getD defaultVote).deposit with _ | reward
        · exfalso
          simp [claim_reward, mhas, hch, hres, hcl, hwin, hdiv, hmul, fail] at hok
        · rcases hadd : checked_add reward
              ((mget st.votes (cid, sender)).getD defaultVote).deposit with _ | total
          · exfalso
            simp [claim_reward, mhas, hch, hres, hcl, hwin, hdiv, hmul, hadd,
              fail] at hok
          · rcases hu : unlock sender total ch.listing_hash st.token with ⟨e, t'⟩
            rcases e with _ | e
            · constructor
              · simp [claim_reward, mhas, hch, hres, hcl, hwin, hdiv, hmul,
                  hadd, hu, ok, mget_mset_self]
              · simp [claim_reward, mhas, hch, hres, hcl, hwin, hdiv, hmul,
                  hadd, hu, ok, mget_mset_self, fail]
            · exfalso
              simp [claim_reward, mhas, hch, hres, hcl, hwin, hdiv, hmul, hadd,
                hu, fail] at hok
    · constructor
      · simp [claim_reward, mhas, hch, hres, hcl, hwin, ok, mget_mset_self]
      · simp [claim_reward, mhas, hch, hres, hcl, hwin, ok, mget_mset_self, fail]

/-- Witness for the amended C7 at `c7State`: the non-voter `5` claims on
the resolved challenge `0`; the defaulted vote is stored claimed, and a
second claim fails with AlreadyClaimed. -/
theorem c7_witness :
    mget (claim_reward (some 5) 0 c7State).state.votes (0, 5)
        = some { (mget c7State.votes (0, 5)).getD defaultVote with claimed := true }
      ∧ (claim_reward (some 5) 0 (claim_reward (some 5) 0 c7State).state).err
        = some "Vote reward has already been claimed." :=
  c7_claimed_set_exactly_once c7State 5 0 ⟨[1], 10, 2, 5, true, 0, 1⟩
    (by decide) (by decide) (by decide)

/-- State used for C5: listing `0` (hash `[4]`, deposit `100`) carries the
open challenge `1` (deposit `100`) whose poll is freshly seeded at
`(100, 100)`; account `7` holds balance `1000`. -/
def c5State : TcrState :=
  { token := { is_init := true, total_supply := 2000, balances := [(7, 1000)],
               allowances := [], locked := [([4], 200)] },
    owner := 1, admins := [], min_deposit := some 100,
    apply_stage_len := some 10, commit_stage_len := some 10,
    listings := [([4], ⟨0, [4], 100, 1, 10, false, 1⟩)],
    listing_count := 1, index_hash := [(0, [4])], poll_nonce := 2,
    challenges := [(1, ⟨[4], 100, 2, 100, false, 0, 0⟩)],
    polls := [(1, ⟨[4], 100, 100, false⟩)], votes := [] }

/-- Claim C5 counterexample: the escrow equation holds after account `7`'s
first vote, but after `7` re-votes on the still-open challenge the tally
keeps both contributions while the Vote record only keeps the second, so
`votes_for + votes_against` no longer equals listing deposit + challenge
deposit + unclaimed vote deposits — the claimed invariant fails in the
reachable double-vote state. -/
theorem c5_counterexample :
    pollInv (vote (some 7) 1 true 10 0 c5State).state 1
      ∧ (vote (some 7) 1 true 5 0 (vote (some 7) 1 true 10 0 c5State).state).err
        = none
      ∧ ((mget (vote (some 7) 1 true 5 0
            (vote (some 7) 1 true 10 0 c5State).state).state.challenges 1).getD
          defaultChallenge).resolved = false
      ∧ ¬ pollInv (vote (some 7) 1 true 5 0
            (vote (some 7) 1 true 10 0 c5State).state).state 1 := by
  decide

/-- Claim C5 (amended): the escrow equation
`votes_for + votes_against = listing.deposit + challenge.deposit + Σ
unclaimed vote deposits` is established by `challenge` and preserved by
every vote of an account with no existing Vote record for the poll
(given the tally addition does not wrap); but a second vote by the same
account overwrites its prior unclaimed record without retracting that
record's tally contribution, leaving the tally in excess of the equation
by exactly the overwritten deposit. -/
theorem c5_poll_escrow_equation :
    (∀ (st : TcrState) (sender : AccountId) (lid dep now : Nat) (lh : HashT)
       (L : Listing) (csl : Nat),
       mget st.index_hash lid = some lh → mget st.listings lh = some L →
       L.challenge_id = 0 → L.owner ≠ sender → L.deposit ≤ dep →
       st.commit_stage_len = some csl → now + csl < MOD →
       now < L.application_expiry →
       mhas st.token.balances sender = true →
       dep < balance_of st.token sender →
       locked_deposits st.token lh + dep < MOD →
       unclaimedVoteSum st.votes st.poll_nonce = 0 →
       pollInv (challenge (some sender) lid dep now st).state st.poll_nonce)
    ∧ (∀ (st : TcrState) (sender : AccountId) (cid : Nat) (val : Bool)
       (dep now : Nat) (ch : Challenge) (p : Poll),
       mget st.challenges cid = some ch → ch.resolved = false →
       now < ch.voting_ends → mget st.polls cid = some p →
       mhas st.token.balances sender = true →
       dep < balance_of st.token sender →
       locked_deposits st.token ch.listing_hash + dep < MOD →
       mget st.votes (cid, sender) = none →
       (if val then p.votes_for else p.votes_against) + dep < MOD →
       pollInv st cid →
       pollInv (vote (some sender) cid val dep now st).state cid)
    ∧ (∀ (st : TcrState) (sender : AccountId) (cid : Nat) (val : Bool)
       (dep now : Nat) (ch : Challenge) (p : Poll) (ov : Vote),
       mget st.challenges cid = some ch → ch.resolved = false →
       now < ch.voting_ends → mget st.polls cid = some p →
       mhas st.token.balances sender = true →
       dep < balance_of st.token sender →
       locked_deposits st.token ch.listing_hash + dep < MOD →
       mget st.votes (cid, sender) = some ov → ov.claimed = false →
       (if val then p.votes_for else p.votes_against) + dep < MOD →
       pollInv st cid →
       ((mget (vote (some sender) cid val dep now st).state.polls cid).getD
            defaultPoll).votes_for
          + ((mget (vote (some sender) cid val dep now st).state.polls cid).getD
              defaultPoll).votes_against
        = ((mget (vote (some sender) cid val dep now st).state.listings
              ch.listing_hash).getD defaultListing).deposit
            + ch.deposit
            + unclaimedVoteSum (vote (some sender) cid val dep now st).state.votes cid
            + ov.deposit) := by
  refine ⟨?_, ?_, ?_⟩
  · intro st sender lid dep now lh L csl hidx hlst hc0 hown hdep hcsl hexp happ
      hbm hbv hlm hfresh
    rw [challenge_ok_shape st sender lid dep now lh L hidx hlst hc0 hown hdep
      csl hcsl hexp happ hbm hbv hlm]
    simp [ok, pollInv, mget_mset_self, hfresh]
  · intro st sender cid val dep now ch p hch hres htime hp hbm hbv hlm hfresh
      hwrap hinv
    rw [vote_ok_shape st sender cid val dep now ch hch hres htime hbm hbv hlm]
    simp only [pollInv, hch, hp, Option.getD_some] at hinv
    have hsum := unclaimedVoteSum_mset_fresh st.votes (cid, sender)
      ⟨val, dep, false⟩ cid hfresh
    cases val with
    | true =>
      have hmod : (p.votes_for + dep) % MOD = p.votes_for + dep :=
        Nat.mod_eq_of_lt (by simpa using hwrap)
      simp [ok, pollInv, mget_mset_self, hch, hp, hsum, hmod]
      omega
    | false =>
      have hmod : (p.votes_against + dep) % MOD = p.votes_against + dep :=
        Nat.mod_eq_of_lt (by simpa using hwrap)
      simp [ok, pollInv, mget_mset_self, hch, hp, hsum, hmod]
      omega
  · intro st sender cid val dep now ch p ov hch hres htime hp hbm hbv hlm hold
      hoc hwrap hinv
    rw [vote_ok_shape st sender cid val dep now ch hch hres htime hbm hbv hlm]
    simp only [pollInv, hch, hp, Option.getD_some] at hinv
    have hsum := unclaimedVoteSum_mset_replace st.votes (cid, sender) ov
      ⟨val, dep, false⟩ cid hold rfl hoc rfl
    cases val with
    | true =>
      have hb : p.votes_for + dep < MOD := by simpa using hwrap
      have hsum2 : unclaimedVoteSum (mset st.votes (cid, sender)
            ⟨true, dep, false⟩) cid + ov.deposit
          = unclaimedVoteSum st.votes cid + dep := hsum
      simp [ok, mget_mset_self, hch, hp]
      rw [Nat.mod_eq_of_lt hb]
      omega
    | false =>
      have hb : p.votes_against + dep < MOD := by simpa using hwrap
      have hsum2 : unclaimedVoteSum (mset st.votes (cid, sender)
            ⟨false, dep, false⟩) cid + ov.deposit
          = unclaimedVoteSum st.votes cid + dep := hsum
      simp [ok, mget_mset_self, hch, hp]
      rw [Nat.mod_eq_of_lt hb]
      omega

/-- Witness for the amended C5 at `c5State`: account `7`'s first (fresh)
vote of deposit `10` preserves the escrow equation. -/
theorem c5_witness :
    pollInv (vote (some 7) 1 true 10 0 c5State).state 1 :=
  c5_poll_escrow_equation.2.1 c5State 7 1 true 10 0
    ⟨[4], 100, 2, 100, false, 0, 0⟩ ⟨[4], 100, 100, false⟩
    (by decide) (by decide) (by decide) (by decide) (by decide) (by decide)
    (by decide) (by decide) (by decide) (by decide)

end TCR
